import Mathlib

/-!
Verification development for the stellar-nest transaction-orchestration core.

The TypeScript sources embedded here are
`src/providers/transactions/payment.service.ts` (asset resolver `getAsset`,
`sendPayment`, `swapPayment`) and `src/providers/assets/assets-utils.service.ts`
(the `AccountUtilsService` helpers `isValidAccount`, `getAccount`,
`getBalances`, `getPairFromSecret`, `getAccountFromSecret`, and the
`AccountService` operations `createAccount`, `deleteAccount`,
`validateTrustLine`).

External collaborators (the Horizon ledger client, keypair parsing in the
stellar SDK, the fee oracle, the balance validator of
`payment-utils.service.ts`, transaction submission) are modelled as an explicit
environment record `Env`; every network interaction is recorded in an event
trace so that "performs zero network calls" and "no operation was appended"
style properties are stated over the trace.  Fallible TypeScript code
(`throw` / rejected promises) is modelled with `Except JSError`.

Amounts (JS `number` / decimal-string balances) are modelled as `ℚ`; the
values stellar handles are 7-decimal fixed-point numbers, which `ℚ`
represents exactly.  Network passphrases and memo re-encoding are orthogonal
to every claim and are carried verbatim / omitted as noted inline.
-/

namespace StellarNest

instance instDecEqExcept {ε α : Type} [DecidableEq ε] [DecidableEq α] :
    DecidableEq (Except ε α) := fun a b =>
  match a, b with
  | .error e, .error f =>
    if h : e = f then .isTrue (by rw [h])
    else .isFalse (fun hc => h (by injection hc))
  | .ok x, .ok y =>
    if h : x = y then .isTrue (by rw [h])
    else .isFalse (fun hc => h (by injection hc))
  | .error _, .ok _ => .isFalse (fun hc => Except.noConfusion hc)
  | .ok _, .error _ => .isFalse (fun hc => Except.noConfusion hc)

/-- A JS `Error` value: a message plus the optional `response` field that
axios-style network errors carry (`e.response.data`). -/
structure RespData where
  data : String
deriving DecidableEq, Repr

structure JSError where
  msg : String
  response : Option RespData := none
deriving DecidableEq, Repr

/-- `Keypair`: only the public key is observable in this development. -/
structure KP where
  pub : String
deriving DecidableEq, Repr

/-- A Horizon balance line: `asset_type === 'native'` lines versus issued
lines carrying `asset_code` / `asset_issuer`.  The decimal `balance` string is
modelled by its exact rational value. -/
inductive BalanceLine where
  | native (balance : ℚ)
  | issued (code issuer : String) (balance : ℚ)
deriving DecidableEq, Repr

def BalanceLine.isNative : BalanceLine → Bool
  | .native _ => true
  | .issued _ _ _ => false

/-- `b.asset_code`: `undefined` on native lines. -/
def BalanceLine.assetCode : BalanceLine → Option String
  | .native _ => none
  | .issued c _ _ => some c

def BalanceLine.assetIssuer : BalanceLine → Option String
  | .native _ => none
  | .issued _ i _ => some i

/-- An account snapshot as returned by `loadAccount`. -/
structure AccountRec where
  balances : List BalanceLine
deriving DecidableEq, Repr

/-- A structured stellar-sdk `Asset`: `Asset.native()` is
`new Asset('XLM')`, i.e. a code with no issuer (`isNative()` checks
`!this.issuer`). -/
structure SAsset where
  code : String
  issuer : Option String
deriving DecidableEq, Repr

def SAsset.nativeAsset : SAsset := ⟨"XLM", none⟩

/-- Transaction operations appended by this core. -/
inductive Op where
  | payment (source destination : Option String) (asset : SAsset) (amount : ℚ)
  | changeTrust (source : Option String) (asset : SAsset) (limit : Option String)
  | accountMerge (destination : Option String)
  | createAcc (destination : String) (startingBalance : String)
  | setOptions (source : Option String) (homeDomain : String)
deriving DecidableEq, Repr

/-- Observable events: network interactions plus every
`TransactionBuilder.addOperation` call. -/
inductive Ev where
  | getFees
  | loadAccount (id : Option String)
  | submit
  | opAppended (op : Op)
deriving DecidableEq, Repr

def Ev.isNetwork : Ev → Bool
  | .opAppended _ => false
  | _ => true

/-- The operations appended so far, read off the event trace in order. -/
def opsAppendedIn : List Ev → List Op
  | [] => []
  | .opAppended op :: r => op :: opsAppendedIn r
  | _ :: r => opsAppendedIn r

/-- Fee stats, `{ base?, max? }` with destructuring defaults at call sites. -/
structure FeesRec where
  base : Option String
  max : Option String
deriving DecidableEq, Repr

/-- A built transaction envelope (network passphrase omitted: it is fixed by
configuration and appears in no claim). -/
structure Tx where
  fee : String
  ops : List Op
  memo : Option String
  timeout : Nat
deriving DecidableEq, Repr

/-- JS truthiness of an optional string: `undefined` and `''` are falsy. -/
def optTruthy (o : Option String) : Bool := o.getD "" ≠ ""

/-- JS `a || d` for optional strings. -/
def orDefault (o : Option String) (d : String) : String :=
  if optTruthy o then o.getD "" else d

/-- JS string coercion of a possibly-undefined value, as performed by
`RegExp.test` (`undefined` coerces to the string "undefined"). -/
def jsStr : Option String → String
  | none => "undefined"
  | some s => s

/-- JS `String.prototype.split` with a single-character separator:
`"a:b:c".split(':') = ["a","b","c"]`, `"".split(':') = [""]`,
`"a:".split(':') = ["a",""]`. -/
def jsSplitAux (sep : Char) : List Char → List Char → List String
  | [], cur => [String.mk cur.reverse]
  | c :: rest, cur =>
    if c = sep then String.mk cur.reverse :: jsSplitAux sep rest []
    else jsSplitAux sep rest (c :: cur)

def jsSplit (s : String) (sep : Char) : List String :=
  jsSplitAux sep s.toList []

/-- The external world of one orchestration call: SDK key parsing, Horizon
account snapshots, fee stats, the balance validator of
`payment-utils.service.ts` (not among the provided sources; per spec §4.2 it
answers "does the account hold at least `amount` of `asset`" as a boolean),
the submission outcome, and the `Keypair.random()` freshness. -/
structure Env where
  /-- `StrKey.isValidEd25519PublicKey` (external SDK parsing). -/
  validKey : String → Bool
  /-- `Keypair.fromSecret`: `none` means the SDK throws. -/
  kpFromSecret : String → Option KP
  /-- `Keypair.fromPublicKey` succeeds. -/
  validPublicKey : String → Bool
  fees : FeesRec
  /-- `loadAccount`: `none` means Horizon rejects (404). -/
  accounts : String → Option AccountRec
  /-- Modelled from the spec: `payment-utils.service.ts` is not in the
  provided sources; §4.2 specifies a boolean sufficient-balance check. -/
  validateAssetBalance : String → SAsset → ℚ → Bool
  submitResult : Except JSError Unit
  freshPair : KP

/- ### stellar-sdk `Asset` constructor (external collaborator)

```js
constructor(code, issuer) {
  if (!/^[a-zA-Z0-9]{1,12}$/.test(code)) throw new Error('Asset code is invalid ...');
  if (String(code).toLowerCase() !== 'xlm' && !issuer) throw new Error('Issuer cannot be null');
  if (issuer && !StrKey.isValidEd25519PublicKey(issuer)) throw new Error('Issuer is invalid');
  this.code = code; this.issuer = issuer;
}
```
-/

def assetCodeInvalidErr : JSError := ⟨"Asset code is invalid", none⟩
def issuerNullErr : JSError := ⟨"Issuer cannot be null", none⟩
def issuerInvalidErr : JSError := ⟨"Issuer is invalid", none⟩

/-- `String.prototype.toLowerCase` restricted to ASCII (asset codes are
alphanumeric ASCII). -/
def jsToLower (s : String) : String := String.mk (s.data.map Char.toLower)

def validCodeStr (c : String) : Bool :=
  1 ≤ c.data.length && c.data.length ≤ 12 &&
    c.data.all (fun ch => ch.isAlpha || ch.isDigit)

def assetNew (vk : String → Bool) (code issuer : Option String) :
    Except JSError SAsset :=
  if validCodeStr (jsStr code) = false then .error assetCodeInvalidErr
  else if jsToLower (jsStr code) ≠ "xlm" ∧ optTruthy issuer = false then
    .error issuerNullErr
  else if optTruthy issuer = true ∧ vk (jsStr issuer) = false then
    .error issuerInvalidErr
  else .ok ⟨jsStr code, issuer⟩

/- ### Asset resolver — `PaymentService.getAsset` (payment.service.ts:34) -/

def getAsset (vk : String → Bool) (asset : String) : Except JSError SAsset :=
  if asset = "XLM" then .ok SAsset.nativeAsset
  else assetNew vk ((jsSplit asset ':')[0]?) ((jsSplit asset ':')[1]?)

/- ### AccountUtilsService (account-utils.service.ts) -/

def INVALID_SECRET : String := "Invalid secret"
def invalidSecretErr : JSError := ⟨INVALID_SECRET, none⟩
def sdkInvalidSecretErr : JSError := ⟨"invalid encoded string", none⟩
def sdkInvalidPubErr : JSError := ⟨"invalid encoded string", none⟩
def notFoundErr : JSError := ⟨"Request failed with status code 404", some ⟨"not_found"⟩⟩
def typeUndefinedErr : JSError :=
  ⟨"Cannot read properties of undefined", none⟩
def typeNullErr : JSError := ⟨"Cannot read properties of null", none⟩

/-- A JS value that is either the literal `true` or a caught `Error` object. -/
inductive JSVal where
  | boolTrue
  | errVal (e : JSError)
deriving DecidableEq, Repr

/-- JS truthiness: `true` is truthy and so is every `Error` object. -/
def jsTruthy : JSVal → Bool
  | .boolTrue => true
  | .errVal _ => true

/-- `isValidAccount(accountId)`: `try { Keypair.fromPublicKey(accountId);
return true } catch (e) { return e }`.  Calling it on `undefined` also throws
inside the SDK, so that too yields the caught error object. -/
def isValidAccount (env : Env) (accountId : Option String) : JSVal :=
  match accountId with
  | none => .errVal sdkInvalidPubErr
  | some s => if env.validPublicKey s then .boolTrue else .errVal sdkInvalidPubErr

/-- The outcome of `serverService.loadAccount` against the Horizon world. -/
def loadAccountRes (env : Env) (id : Option String) :
    Except JSError AccountRec :=
  match id with
  | none => .error notFoundErr
  | some a =>
    match env.accounts a with
    | some acc => .ok acc
    | none => .error notFoundErr

/-- `serverService.loadAccount`: always a network round-trip (the request is
issued even for an `undefined` id, hitting `/accounts/undefined`). -/
def loadAccount (env : Env) (id : Option String) (tr : List Ev) :
    Except JSError AccountRec × List Ev :=
  (loadAccountRes env id, tr ++ [Ev.loadAccount id])

/-- `getAccount(accountId)`: `isValid ? await loadAccount(accountId) : null`.
The `null` branch is modelled by `Option.none` in the success value. -/
def getAccountRes (env : Env) (id : Option String) :
    Except JSError (Option AccountRec) :=
  if jsTruthy (isValidAccount env id) then
    match loadAccountRes env id with
    | .ok acc => .ok (some acc)
    | .error e => .error e
  else .ok none

/-- The network events `getAccount` produces: the account load happens
exactly when the `isValid` check is truthy. -/
def getAccountEvents (env : Env) (id : Option String) : List Ev :=
  if jsTruthy (isValidAccount env id) then [Ev.loadAccount id] else []

def getAccount (env : Env) (id : Option String) (tr : List Ev) :
    Except JSError (Option AccountRec) × List Ev :=
  (getAccountRes env id, tr ++ getAccountEvents env id)

/-- Result shape of `getBalances`: the whole balance array when no
`assetCode` filter is given, otherwise the `find` result. -/
inductive BalancesResult where
  | all (bs : List BalanceLine)
  | found (b : Option BalanceLine)
deriving DecidableEq, Repr

/-- The `find` callback of `getBalances`:
`assetCode === 'XLM' ? b.asset_type === 'native' : b.asset_code === assetCode`. -/
def findBal (bs : List BalanceLine) (assetCode : String) : Option BalanceLine :=
  bs.find? (fun b =>
    if assetCode = "XLM" then b.isNative else b.assetCode == some assetCode)

/-- `getBalances(accountId, assetCode?)`.  Reading `.balances` off a `null`
account would throw, which is modelled faithfully (and shown unreachable by
the C10 analysis). -/
def getBalancesRes (env : Env) (id : Option String)
    (assetCode : Option String) : Except JSError BalancesResult :=
  match getAccountRes env id with
  | .error e => .error e
  | .ok none => .error typeNullErr
  | .ok (some acc) =>
    if ¬ optTruthy assetCode then .ok (.all acc.balances)
    else .ok (.found (findBal acc.balances (assetCode.getD "")))

def getBalances (env : Env) (id : Option String) (assetCode : Option String)
    (tr : List Ev) : Except JSError BalancesResult × List Ev :=
  (getBalancesRes env id assetCode, tr ++ getAccountEvents env id)

/-- `getPairFromSecret`: wraps `Keypair.fromSecret` and rethrows
`INVALID_SECRET` (an error without any `response` payload).  Accepts an
optional secret because `validateTrustLine` can feed it `undefined`. -/
def getPairFromSecret (env : Env) (secret : Option String) :
    Except JSError KP :=
  match secret with
  | none => .error invalidSecretErr
  | some s =>
    match env.kpFromSecret s with
    | some kp => .ok kp
    | none => .error invalidSecretErr

/-- `getAccountFromSecret(secret)` returns `[pair, await getAccount(pair.publicKey())]`. -/
def getAccountFromSecretRes (env : Env) (secret : Option String) :
    Except JSError (KP × Option AccountRec) :=
  match getPairFromSecret env secret with
  | .error e => .error e
  | .ok pair =>
    match getAccountRes env (some pair.pub) with
    | .ok acc => .ok (pair, acc)
    | .error e => .error e

def getAccountFromSecretEvents (env : Env) (secret : Option String) :
    List Ev :=
  match getPairFromSecret env secret with
  | .error _ => []
  | .ok pair => getAccountEvents env (some pair.pub)

def getAccountFromSecret (env : Env) (secret : Option String) (tr : List Ev) :
    Except JSError (KP × Option AccountRec) × List Ev :=
  (getAccountFromSecretRes env secret,
    tr ++ getAccountFromSecretEvents env secret)

/- ### PaymentService (payment.service.ts) -/

def BASE_FEE : String := "100"
def insufficientBalanceErr : JSError := ⟨"Insufficient balance", none⟩
def noPaymentsErr : JSError := ⟨"No payments to send", none⟩

/-- A payment intent (`TPayment`).  `amount: number | string` is collapsed to
its exact numeric value; `memo?: string | number | Uint8Array` is carried as
an optional string (only its JS truthiness and identity matter here). -/
structure ToField where
  publicKey : Option String := none
  secretKey : Option String := none
deriving DecidableEq, Repr

structure TPayment where
  asset : String
  amount : ℚ
  memo : Option String := none
  «to» : ToField
deriving DecidableEq, Repr

/-- `TSender` of `swapPayment`. -/
structure TSender where
  secretKey : String
  asset : String
  amount : ℚ
deriving DecidableEq, Repr

/-- Recipient identity resolution inside the payment loop:
`«to».secretKey ? Keypair.fromSecret(«to».secretKey).publicKey() : «to».publicKey`.
The raw SDK `fromSecret` throws (no `response` payload) on a bad secret. -/
def recipientKey (env : Env) («to» : ToField) : Except JSError (Option String) :=
  if optTruthy «to».secretKey then
    match env.kpFromSecret («to».secretKey.getD "") with
    | some kp => .ok (some kp.pub)
    | none => .error sdkInvalidSecretErr
  else .ok «to».publicKey

/-- The `for (const { asset, amount, to } of payments)` loop of `sendPayment`
(payment.service.ts:63-99), threading the builder's operation list, the
`extraSigners` accumulator and the event trace. -/
def payLoop (env : Env) (senderPub : String) :
    List TPayment → List Op → List KP → List Ev →
    Except JSError (List Op × List KP) × List Ev
  | [], ops, sg, tr => (.ok (ops, sg), tr)
  | p :: rest, ops, sg, tr =>
    match getAsset env.validKey p.asset with
    | .error e => (.error e, tr)
    | .ok A =>
      if env.validateAssetBalance senderPub A p.amount then
        match recipientKey env p.«to» with
        | .error e => (.error e, tr)
        | .ok pk =>
          let tr' := tr ++ getAccountEvents env pk
          match getBalancesRes env pk (some A.code) with
          | .error e => (.error e, tr')
          | .ok (.all _) => (.error typeUndefinedErr, tr')
          | .ok (.found hasTrustline) =>
            if hasTrustline.isNone ∧ optTruthy p.«to».secretKey ∧
                p.asset ≠ "XLM" then
              let ctOp := Op.changeTrust pk A none
              let payOp := Op.payment none pk A p.amount
              payLoop env senderPub rest (ops ++ [ctOp, payOp])
                (sg ++ [⟨(env.kpFromSecret (p.«to».secretKey.getD "")).map
                  KP.pub |>.getD ""⟩])
                (tr' ++ [Ev.opAppended ctOp, Ev.opAppended payOp])
            else
              let payOp := Op.payment none pk A p.amount
              payLoop env senderPub rest (ops ++ [payOp]) sg
                (tr' ++ [Ev.opAppended payOp])
      else (.error insufficientBalanceErr, tr)

/-- Result of `sendPayment`: the signed-but-unsubmitted envelope when
`feeBump` is requested, otherwise the submitted transaction's hash (the hash
is a function of the transaction, so the transaction is carried). -/
inductive SendResult where
  | envelope (t : Tx)
  | hashOf (t : Tx)
deriving DecidableEq, Repr

/-- `sendPayment({payments, secretKey, feeBump})` (payment.service.ts:41-120).
Signing by `signersService.signTransaction` is an external collaborator that
returns the signed envelope; signatures are not observable here. -/
def sendPayment (env : Env) (payments : List TPayment) (secretKey : String)
    (feeBump : Bool) : Except JSError SendResult × List Ev :=
  match payments with
  | [] => (.error noPaymentsErr, [])
  | p0 :: _ =>
    let tr0 : List Ev :=
      [Ev.getFees] ++ getAccountFromSecretEvents env (some secretKey)
    let base := orDefault env.fees.base BASE_FEE
    match getAccountFromSecretRes env (some secretKey) with
    | .error e => (.error e, tr0)
    | .ok (_, none) => (.error typeNullErr, tr0)
    | .ok (sourcePair, some _) =>
      let pl := payLoop env sourcePair.pub payments [] [sourcePair] tr0
      match pl.1 with
      | .error e => (.error e, pl.2)
      | .ok (ops, _extraSigners) =>
        let memoVal := if optTruthy p0.memo then p0.memo else none
        let transaction : Tx := ⟨base, ops, memoVal, 30⟩
        if feeBump then (.ok (.envelope transaction), pl.2)
        else
          match env.submitResult with
          | .error e => (.error e, pl.2 ++ [Ev.submit])
          | .ok _ => (.ok (.hashOf transaction), pl.2 ++ [Ev.submit])

/-- Return shape of `swapPayment`: `true`, `false`, or `e.response.data`. -/
inductive SwapResult where
  | success
  | rejected
  | payload (d : String)
deriving DecidableEq, Repr

/-- The `try` body of `swapPayment` (payment.service.ts:162-214). -/
def swapBody (env : Env) (sender recipient : TSender) (memo : Option String) :
    Except JSError SwapResult × List Ev :=
  let tr : List Ev :=
    [Ev.getFees] ++ getAccountFromSecretEvents env (some sender.secretKey)
  let maxFee := orDefault env.fees.max BASE_FEE
  match getAccountFromSecretRes env (some sender.secretKey) with
  | .error e => (.error e, tr)
  | .ok (_, none) => (.error typeNullErr, tr)
  | .ok (sourcePair, some _) =>
    match getAsset env.validKey sender.asset with
    | .error e => (.error e, tr)
    | .ok senderAsset =>
      match getAsset env.validKey recipient.asset with
      | .error e => (.error e, tr)
      | .ok recipientAsset =>
        -- NB: the validator is fed `sender.secretKey`, not the public key.
        if ¬ env.validateAssetBalance sender.secretKey senderAsset
            sender.amount then
          (.ok .rejected, tr)
        else
          match env.kpFromSecret recipient.secretKey with
          | none => (.error sdkInvalidSecretErr, tr)
          | some rkp =>
            let op1 := Op.payment none (some rkp.pub) senderAsset
              sender.amount
            let op2 := Op.payment (some rkp.pub) (some sourcePair.pub)
              recipientAsset recipient.amount
            let tr' := tr ++ [Ev.opAppended op1, Ev.opAppended op2]
            let memoVal := if optTruthy memo then memo else none
            let _transaction : Tx := ⟨maxFee, [op1, op2], memoVal, 30⟩
            match env.submitResult with
            | .error e => (.error e, tr' ++ [Ev.submit])
            | .ok _ => (.ok .success, tr' ++ [Ev.submit])

/-- `swapPayment(sender, recipient, memo)` with its surrounding
`try { ... } catch (e) { return e.response.data }`.  When the caught error
has no `response` field, evaluating `e.response.data` itself throws a
`TypeError`, which propagates out of the method. -/
def swapPayment (env : Env) (sender recipient : TSender)
    (memo : Option String) : Except JSError SwapResult × List Ev :=
  match swapBody env sender recipient memo with
  | (.ok r, tr) => (.ok r, tr)
  | (.error e, tr) =>
    match e.response with
    | some r => (.ok (.payload r.data), tr)
    | none => (.error typeUndefinedErr, tr)

/- ### AccountService (account.service.ts part of assets-utils sources) -/

/-- One entry of `options.account.accounts`. -/
structure AccountEntry where
  type : String
  public : Option String := none
  secret : Option String := none
deriving DecidableEq, Repr

/-- `options.account.config` plus the account list: `create_by`, the starting
options, and the role registry.  Base trustlines are carried as their
already-per-mode-resolved `"code:issuer"` strings. -/
structure StellarConfig where
  create_by : Option String
  accounts : List AccountEntry
  startingBalance : Option String := none
  homeDomain : Option String := none
  baseTrustline : Option (List String) := none
deriving Repr

def INVALID_ACCOUNT_TYPE : String := "Invalid account type,"
def invalidTypeErr : JSError := ⟨INVALID_ACCOUNT_TYPE, none⟩
def noDestErr : JSError := ⟨"Se debe mandar a alguna cuenta", none⟩

/-- `mainAccounts.find((a) => a.type === create_by)`; a `===` comparison with
an `undefined` `create_by` matches nothing. -/
def findByType (cfg : StellarConfig) : Option AccountEntry :=
  cfg.accounts.find? (fun a => some a.type == cfg.create_by)

/-- `validateAccountType()`: throws unless `create_by` is among the
registered account types (`includes(undefined)` is false). -/
def validateAccountType (cfg : StellarConfig) : Except JSError Unit :=
  match cfg.create_by with
  | some cb =>
    if (cfg.accounts.map (·.type)).contains cb then .ok () else
      .error invalidTypeErr
  | none => .error invalidTypeErr

/-- Modelled from the spec: `src/utils/getAssetCode.ts` is not among the
provided sources.  Per §4.1 the resolver maps the native marker to the native
asset and a `"code:issuer"` composite to the issued asset, failing on a
malformed descriptor — the same contract `getAsset` implements. -/
def getAssetCode (vk : String → Bool) (asset : String) :
    Except JSError SAsset :=
  getAsset vk asset

/-- The funding keypair of `createAccount`: an explicit secret wins,
otherwise `Keypair.fromPublicKey(find(create_by)?.public)` (which throws on
`undefined` or an invalid key). -/
def resolveFunding (env : Env) (cfg : StellarConfig) (secret : Option String) :
    Except JSError KP :=
  if optTruthy secret then
    match env.kpFromSecret (secret.getD "") with
    | some kp => .ok kp
    | none => .error sdkInvalidSecretErr
  else
    match (findByType cfg).bind (·.public) with
    | some p => if env.validPublicKey p then .ok ⟨p⟩ else
        .error sdkInvalidPubErr
    | none => .error sdkInvalidPubErr

/-- The operation list `createAccount` accumulates before building:
create-account, optional home-domain, per-config base trustlines, optional
caller-requested trustline (each `new Asset` construction can throw). -/
def buildCreateOps (env : Env) (cfg : StellarConfig) (newPair : KP)
    (trustline : Option String) : Except JSError (List Op) := do
  let start := [Op.createAcc newPair.pub (orDefault cfg.startingBalance "1")]
  let domOps := if optTruthy cfg.homeDomain then
      [Op.setOptions (some newPair.pub) (cfg.homeDomain.getD "")] else []
  let tlOps ← match cfg.baseTrustline with
    | none => pure ([] : List Op)
    | some ts => ts.mapM (fun t => do
        let parts := jsSplit t ':'
        let A ← assetNew env.validKey parts[0]? parts[1]?
        pure (Op.changeTrust (some newPair.pub) A none))
  let extraOps ← if optTruthy trustline then do
      let A ← getAssetCode env.validKey (trustline.getD "")
      pure [Op.changeTrust (some newPair.pub) A none]
    else pure ([] : List Op)
  pure (start ++ domOps ++ tlOps ++ extraOps)

/-- `createAccount({secret, trustline})` (account service).  The final
`submitTransaction(...).catch((e) => e)` resolves a rejected submission to
the error value (which the method then discards) instead of re-throwing, and
the fresh keypair is returned regardless. -/
def createAccount (env : Env) (cfg : StellarConfig)
    (secret trustline : Option String) : Except JSError KP × List Ev :=
  let newPair := env.freshPair
  match validateAccountType cfg with
  | .error e => (.error e, [])
  | .ok _ =>
    let tr0 : List Ev := [Ev.getFees]
    let _base := orDefault env.fees.base BASE_FEE
    match resolveFunding env cfg secret with
    | .error e => (.error e, tr0)
    | .ok keyPair =>
      let tr := tr0 ++ getAccountEvents env (some keyPair.pub)
      match getAccountRes env (some keyPair.pub) with
      | .error e => (.error e, tr)
      | .ok none => (.error typeNullErr, tr)
      | .ok (some _account) =>
        match buildCreateOps env cfg newPair trustline with
        | .error e => (.error e, tr)
        | .ok ops =>
          -- build (timeout 180), sign with [newPair, ...(secret ? [keyPair] : [])],
          -- then submit with the rejection swallowed by `.catch((e) => e)`.
          let _swallowed : Option JSError :=
            match env.submitResult with
            | .error e => some e
            | .ok _ => none
          (.ok newPair, tr ++ ops.map Ev.opAppended ++ [Ev.submit])

/-- The `account.balances.forEach` body of `deleteAccount`: for a non-native
line, a full-balance payment to `destination` when `parseFloat(balance) !== 0`
followed unconditionally by a zero-limit change-trust (the `new Asset`
construction is the SDK constructor and can throw; both constructions in the
body receive the same arguments, so the asset is built once here). -/
def deleteLineOps (vk : String → Bool) (destination : Option String) :
    List BalanceLine → List Op → Except JSError (List Op)
  | [], ops => .ok ops
  | .native _ :: rest, ops => deleteLineOps vk destination rest ops
  | .issued c i b :: rest, ops =>
    match assetNew vk (some c) (some i) with
    | .error e => .error e
    | .ok A =>
      let payOps := if b ≠ 0 then [Op.payment none destination A b] else []
      deleteLineOps vk destination rest
        (ops ++ payOps ++ [Op.changeTrust none A (some "0")])

/-- `deleteAccount(secret)`: fail-fast when `create_by` is not configured,
then drain every non-native balance, remove each trustline, and merge into
the destination role's account, all in one transaction; the submission
rejection is swallowed by `.catch((e) => e)`. -/
def deleteAccount (env : Env) (cfg : StellarConfig) (secret : String) :
    Except JSError Unit × List Ev :=
  if ¬ optTruthy cfg.create_by then (.error noDestErr, [])
  else
    let tr := getAccountFromSecretEvents env (some secret)
    match getAccountFromSecretRes env (some secret) with
    | .error e => (.error e, tr)
    | .ok (_, none) => (.error typeNullErr, tr)
    | .ok (_keypair, some account) =>
      let destination := (findByType cfg).bind (·.public)
      let tr1 := tr ++ [Ev.getFees]
      let _base := orDefault env.fees.base BASE_FEE
      match deleteLineOps env.validKey destination account.balances [] with
      | .error e => (.error e, tr1)
      | .ok ops =>
        let allOps := ops ++ [Op.accountMerge destination]
        -- build (timeout 30), sign with the account's own keypair, submit
        -- with the rejection swallowed.
        (.ok (), tr1 ++ allOps.map Ev.opAppended ++ [Ev.submit])

/-- Return shape of `validateTrustLine`: `true` or `e.response.data`. -/
inductive VTResult where
  | success
  | payload (d : String)
deriving DecidableEq, Repr

/-- `validateTrustLine(asset, wallet)`: resolve the asset, load the
`create_by` master account, fetch the wallet's balances, and return `true`
immediately when a balance line with the requested asset's code exists;
otherwise revoke whichever non-native trustline is found first and establish
the requested one, submitting inside a `try`/`catch` that returns
`e.response.data`. -/
def validateTrustLine (env : Env) (cfg : StellarConfig) (asset : String)
    (walletPub walletSecret : String) : Except JSError VTResult × List Ev :=
  match getAssetCode env.validKey asset with
  | .error e => (.error e, [])
  | .ok A =>
    let tr := getAccountFromSecretEvents env ((findByType cfg).bind (·.secret))
    match getAccountFromSecretRes env ((findByType cfg).bind (·.secret)) with
    | .error e => (.error e, tr)
    | .ok (_, none) => (.error typeNullErr, tr)
    | .ok (_keypair, some _masterAccount) =>
      let tr' := tr ++ getAccountEvents env (some walletPub)
      match getBalancesRes env (some walletPub) none with
      | .error e => (.error e, tr')
      | .ok (.found _) => (.error typeUndefinedErr, tr')
      | .ok (.all balance) =>
        let hasTrustline :=
          balance.find? (fun b => b.assetCode == some A.code)
        if hasTrustline.isNone then
          let firstNonNative := balance.find? (fun b => ¬ b.isNative)
          match assetNew env.validKey (firstNonNative.bind (·.assetCode))
              (firstNonNative.bind (·.assetIssuer)) with
          | .error e => (.error e, tr')
          | .ok revoked =>
            let op1 := Op.changeTrust (some walletPub) revoked (some "0")
            let op2 := Op.changeTrust (some walletPub) A none
            -- build (timeout 180), sign with [master keypair,
            -- Keypair.fromSecret(wallet.secret)] via the signer coordinator.
            match env.kpFromSecret walletSecret with
            | none => (.error sdkInvalidSecretErr, tr')
            | some _wkp =>
              let tr2 := tr' ++ [Ev.opAppended op1, Ev.opAppended op2,
                Ev.submit]
              match env.submitResult with
              | .ok _ => (.ok .success, tr2)
              | .error e =>
                match e.response with
                | some r => (.ok (.payload r.data), tr2)
                | none => (.error typeUndefinedErr, tr2)
        else (.ok .success, tr')

/- ### Helper lemmas -/

theorem jsTruthy_isValidAccount (env : Env) (id : Option String) :
    jsTruthy (isValidAccount env id) = true := by
  cases id with
  | none => rfl
  | some s =>
    by_cases h : env.validPublicKey s <;> simp [isValidAccount, jsTruthy, h]

theorem opsAppendedIn_append (a b : List Ev) :
    opsAppendedIn (a ++ b) = opsAppendedIn a ++ opsAppendedIn b := by
  induction a with
  | nil => rfl
  | cons e r ih => cases e <;> simp [opsAppendedIn, ih]

theorem opsAppendedIn_map (l : List Op) :
    opsAppendedIn (l.map Ev.opAppended) = l := by
  induction l with
  | nil => rfl
  | cons op r ih => simp [opsAppendedIn, ih]

/- ### Concrete worlds used by witnesses and counterexamples -/

def demoAcc : AccountRec := ⟨[BalanceLine.native 100]⟩

/-- A small world: secrets `SA`/`SB` resolve to accounts `GA`/`GB`, both
existing with a native balance of 100, and the balance validator accepts
exactly the amount 10. -/
def envA : Env :=
  { validKey := fun _ => true
    kpFromSecret := fun s =>
      if s = "SA" then some ⟨"GA"⟩ else if s = "SB" then some ⟨"GB"⟩ else none
    validPublicKey := fun _ => true
    fees := ⟨some "100", some "200"⟩
    accounts := fun a => if a = "GA" ∨ a = "GB" then some demoAcc else none
    validateAssetBalance := fun _ _ amt => amt == 10
    submitResult := .ok ()
    freshPair := ⟨"GNEW"⟩ }

def payTen : TPayment := { asset := "XLM", amount := 10, «to» := { publicKey := some "GB" } }
def paySixty : TPayment := { asset := "XLM", amount := 60, «to» := { publicKey := some "GB" } }

/- ### C5 -/

/-- C5: `sendPayment` on an empty payment list fails with the
`EmptyPaymentList` error (`'No payments to send'`) and its event trace is
empty — in particular no fee lookup, no account load and no submission
happened. -/
theorem sendPayment_empty_fails_before_network (env : Env) (secretKey : String)
    (feeBump : Bool) :
    sendPayment env [] secretKey feeBump = (.error noPaymentsErr, []) := rfl

/- ### C7 -/

/-- C7: `deleteAccount` with no configured `create_by` destination role fails
with `NoDestinationRole` (`'Se debe mandar a alguna cuenta'`) and its event
trace is empty — zero network calls: no account load, no fee load, no
submission. -/
theorem deleteAccount_no_destination_role (env : Env) (cfg : StellarConfig)
    (secret : String) (h : optTruthy cfg.create_by = false) :
    deleteAccount env cfg secret = (.error noDestErr, []) := by
  simp [deleteAccount, h]

def cfgNoRole : StellarConfig := { create_by := none, accounts := [] }

theorem deleteAccount_no_destination_role_witness :
    optTruthy cfgNoRole.create_by = false ∧
    deleteAccount envA cfgNoRole "SA" = (.error noDestErr, []) :=
  ⟨by decide, deleteAccount_no_destination_role envA cfgNoRole "SA" (by decide)⟩

/- ### C10 -/

/-- C10: `isValidAccount` returns `true` for a parseable public key and the
caught `Error` object otherwise — never `false` — so its result is always
truthy, and `getAccount` therefore never takes its `null` branch: it always
performs the network account load, forwarding the given address whether or
not it is valid. -/
theorem isValidAccount_always_truthy (env : Env) (s : String) :
    isValidAccount env (some s) =
      (if env.validPublicKey s then JSVal.boolTrue
       else JSVal.errVal sdkInvalidPubErr) ∧
    jsTruthy (isValidAccount env (some s)) = true ∧
    getAccountRes env (some s) =
      (match loadAccountRes env (some s) with
       | .ok acc => .ok (some acc)
       | .error e => .error e) ∧
    getAccountEvents env (some s) = [Ev.loadAccount (some s)] := by
  refine ⟨rfl, jsTruthy_isValidAccount env (some s), ?_, ?_⟩ <;>
    simp [getAccountRes, getAccountEvents, jsTruthy_isValidAccount]

/- ### C2 -/

/-- A well-formed issuer address for the counterexample world (the all-zero
ed25519 account id); `demoVK` is the key-validity oracle accepting it. -/
def demoIssuer : String :=
  "GAAAAAAAAAAAAAAAAAAAAAAAAAAAAAAAAAAAAAAAAAAAAAAAAAAAAWHF"

def demoVK : String → Bool := fun s => s == demoIssuer

/-- C2 counterexample: the claim says every non-native descriptor without
exactly one code and one issuer component fails.  But (a) a three-component
descriptor whose first two components are a valid code and a valid issuer is
resolved successfully, the third component silently ignored, and (b) the
one-component descriptor `"xlm"` (not the native marker `"XLM"`) is resolved
successfully to a code-only asset, because the SDK constructor exempts the
code `'xlm'` case-insensitively from requiring an issuer. -/
theorem getAsset_component_count_cex :
    (jsSplit ("USDC:" ++ demoIssuer ++ ":junk") ':').length = 3 ∧
    getAsset demoVK ("USDC:" ++ demoIssuer ++ ":junk") =
      .ok ⟨"USDC", some demoIssuer⟩ ∧
    (jsSplit "xlm" ':').length = 1 ∧ "xlm" ≠ "XLM" ∧
    getAsset demoVK "xlm" = .ok ⟨"xlm", none⟩ :=
  ⟨by decide, by decide, by decide, by decide, by decide⟩

/-- C2 amended: `getAsset` maps the native marker `"XLM"` to the native
asset; any other descriptor is split on `":"` and resolved from its first
two components only (components past the second are ignored), succeeding iff
the first component is a valid asset code, an issuer component is required
only when the code is not `'xlm'` case-insensitively, and a present issuer
component must be a valid public key. -/
theorem getAsset_characterization (vk : String → Bool) (s : String) :
    getAsset vk "XLM" = .ok SAsset.nativeAsset ∧
    ((getAsset vk s).isOk = true ↔
      (s = "XLM" ∨
        (validCodeStr (jsStr (jsSplit s ':')[0]?) = true ∧
         (jsToLower (jsStr (jsSplit s ':')[0]?) = "xlm" ∨
           optTruthy (jsSplit s ':')[1]? = true) ∧
         (optTruthy (jsSplit s ':')[1]? = true →
           vk (jsStr (jsSplit s ':')[1]?) = true)))) := by
  refine ⟨rfl, ?_⟩
  by_cases hs : s = "XLM"
  · simp [hs, getAsset, Except.isOk, Except.toBool]
  · simp only [getAsset, hs, if_false, assetNew]
    split_ifs with h1 h2 h3 <;> simp_all [Except.isOk, Except.toBool]
    tauto

/- ### C1 -/

theorem validCode_ne_empty {c : String} (h : validCodeStr c = true) :
    c ≠ "" := fun hc => by subst hc; exact absurd h (by decide)

theorem assetNew_ok {vk : String → Bool} {code issuer : Option String}
    {A : SAsset} (h : assetNew vk code issuer = .ok A) :
    A = ⟨jsStr code, issuer⟩ ∧ validCodeStr (jsStr code) = true := by
  unfold assetNew at h
  split_ifs at h with h1 h2 h3
  injection h with h'
  exact ⟨h'.symm, by simpa using h1⟩

theorem getAsset_ok_code_ne {vk : String → Bool} {s : String} {A : SAsset}
    (h : getAsset vk s = .ok A) : A.code ≠ "" := by
  unfold getAsset at h
  by_cases hs : s = "XLM"
  · rw [if_pos hs] at h
    injection h with h'
    subst h'
    decide
  · rw [if_neg hs] at h
    obtain ⟨hA, hc⟩ := assetNew_ok h
    subst hA
    exact validCode_ne_empty hc

theorem getAccountEvents_eq (env : Env) (id : Option String) :
    getAccountEvents env id = [Ev.loadAccount id] := by
  simp [getAccountEvents, jsTruthy_isValidAccount]

theorem getBalancesRes_code (env : Env) (k code : String) (acc : AccountRec)
    (hacc : env.accounts k = some acc) (hcode : code ≠ "") :
    getBalancesRes env (some k) (some code) =
      .ok (.found (findBal acc.balances code)) := by
  simp [getBalancesRes, getAccountRes, loadAccountRes,
    jsTruthy_isValidAccount, hacc, optTruthy, hcode]

theorem getAccountFromSecretRes_ok (env : Env) (secret : String) (kp : KP)
    (acc : AccountRec) (hkp : env.kpFromSecret secret = some kp)
    (hacc : env.accounts kp.pub = some acc) :
    getAccountFromSecretRes env (some secret) = .ok (kp, some acc) := by
  simp [getAccountFromSecretRes, getPairFromSecret, hkp, getAccountRes,
    loadAccountRes, jsTruthy_isValidAccount, hacc]

theorem getAccountFromSecretEvents_ok (env : Env) (secret : String) (kp : KP)
    (hkp : env.kpFromSecret secret = some kp) :
    getAccountFromSecretEvents env (some secret) =
      [Ev.loadAccount (some kp.pub)] := by
  simp [getAccountFromSecretEvents, getPairFromSecret, hkp,
    getAccountEvents_eq]

/-- A payment intent whose processing step inside the `sendPayment` loop
throws no error and passes the balance check: the asset resolves, the sender
balance validates, and the recipient's identity resolves to an existing
account. -/
def stepOkB (env : Env) (senderPub : String) (p : TPayment) : Bool :=
  match getAsset env.validKey p.asset with
  | .error _ => false
  | .ok A =>
    env.validateAssetBalance senderPub A p.amount &&
    (match recipientKey env p.«to» with
     | .error _ => false
     | .ok none => false
     | .ok (some k) => (env.accounts k).isSome)

/-- A payment intent whose asset resolves but whose balance check fails. -/
def stepBadB (env : Env) (senderPub : String) (p : TPayment) : Bool :=
  match getAsset env.validKey p.asset with
  | .error _ => false
  | .ok A => !env.validateAssetBalance senderPub A p.amount

theorem payLoop_no_submit (env : Env) (senderPub : String)
    (ps : List TPayment) :
    ∀ ops sg tr, Ev.submit ∉ tr →
      Ev.submit ∉ (payLoop env senderPub ps ops sg tr).2 := by
  induction ps with
  | nil => intro ops sg tr h; simpa [payLoop] using h
  | cons p rest ih =>
    intro ops sg tr h
    have hev : ∀ pk : Option String,
        Ev.submit ∉ tr ++ getAccountEvents env pk := by
      intro pk
      simp [getAccountEvents_eq, h]
    unfold payLoop
    split
    · exact h
    · split
      · split
        · exact h
        · split
          · exact hev _
          · exact hev _
          · split
            · apply ih
              simp [getAccountEvents_eq, h]
            · apply ih
              simp [getAccountEvents_eq, h]
      · exact h

theorem payLoop_insufficient (env : Env) (senderPub : String)
    (pre : List TPayment) :
    ∀ (pbad : TPayment) (rest : List TPayment) ops sg tr,
      (∀ p ∈ pre, stepOkB env senderPub p = true) →
      stepBadB env senderPub pbad = true →
      (payLoop env senderPub (pre ++ pbad :: rest) ops sg tr).1 =
        .error insufficientBalanceErr := by
  induction pre with
  | nil =>
    intro pbad rest ops sg tr _ hbad
    unfold stepBadB at hbad
    simp only [List.nil_append]
    unfold payLoop
    cases hA : getAsset env.validKey pbad.asset with
    | error e => rw [hA] at hbad; exact absurd hbad (by simp)
    | ok A =>
      rw [hA] at hbad
      simp only [Bool.not_eq_true'] at hbad
      simp [hA, hbad]
  | cons p pre' ih =>
    intro pbad rest ops sg tr hpre hbad
    have hp := hpre p (List.mem_cons_self p pre')
    unfold stepOkB at hp
    cases hA : getAsset env.validKey p.asset with
    | error e => rw [hA] at hp; exact absurd hp (by simp)
    | ok A =>
      rw [hA] at hp
      rw [Bool.and_eq_true] at hp
      obtain ⟨hv, hrk'⟩ := hp
      cases hrk : recipientKey env p.«to» with
      | error e => rw [hrk] at hrk'; exact absurd hrk' (by simp)
      | ok pk =>
        rw [hrk] at hrk'
        cases pk with
        | none => exact absurd hrk' (by simp)
        | some k =>
          obtain ⟨acc, hacc⟩ := Option.isSome_iff_exists.mp hrk'
          have hcode := getAsset_ok_code_ne hA
          simp only [List.cons_append]
          unfold payLoop
          simp only [hA, hv, if_true, hrk,
            getBalancesRes_code env k A.code acc hacc hcode]
          split
          · exact ih pbad rest _ _ _
              (fun q hq => hpre q (List.mem_cons_of_mem p hq)) hbad
          · exact ih pbad rest _ _ _
              (fun q hq => hpre q (List.mem_cons_of_mem p hq)) hbad

/-- C1 counterexample: with the sender's balance passing the check for the
first intent (amount 10) and failing for the second (amount 60), the call
fails with `InsufficientBalance` — but the first intent's payment operation
had already been appended to the transaction builder before the failing
check ran, refuting "this validation happens before any operation is
appended". -/
theorem sendPayment_prevalidation_cex :
    (sendPayment envA [payTen, paySixty] "SA" false).1 =
      .error insufficientBalanceErr ∧
    opsAppendedIn (sendPayment envA [payTen, paySixty] "SA" false).2 =
      [Op.payment none (some "GB") SAsset.nativeAsset 10] := by decide

/-- C1 amended: if the intents before some intent `pbad` all process cleanly
and `pbad`'s balance requirement is unmet, the whole `sendPayment` call fails
with `InsufficientBalance` and nothing is ever submitted (no submission
event occurs; the partially accumulated builder is discarded with the
thrown error) — but validation is interleaved per intent rather than
performed up front, so earlier intents' operations are already sitting in
the discarded builder (see the counterexample). -/
theorem sendPayment_insufficient_aborts
    (env : Env) (pre : List TPayment) (pbad : TPayment)
    (rest : List TPayment) (secretKey : String) (feeBump : Bool)
    (kp : KP) (acc : AccountRec)
    (hkp : env.kpFromSecret secretKey = some kp)
    (hacc : env.accounts kp.pub = some acc)
    (hpre : ∀ p ∈ pre, stepOkB env kp.pub p = true)
    (hbad : stepBadB env kp.pub pbad = true) :
    (sendPayment env (pre ++ pbad :: rest) secretKey feeBump).1 =
      .error insufficientBalanceErr ∧
    Ev.submit ∉ (sendPayment env (pre ++ pbad :: rest) secretKey feeBump).2 := by
  have hres := getAccountFromSecretRes_ok env secretKey kp acc hkp hacc
  have hevs := getAccountFromSecretEvents_ok env secretKey kp hkp
  have hnos : Ev.submit ∉
      ([Ev.getFees] ++ getAccountFromSecretEvents env (some secretKey)) := by
    simp [hevs]
  cases pre with
  | nil =>
    have hpl1 : (payLoop env kp.pub (pbad :: rest) [] [kp]
        ([Ev.getFees] ++ getAccountFromSecretEvents env (some secretKey))).1 =
          .error insufficientBalanceErr := by
      simpa only [List.nil_append] using payLoop_insufficient env kp.pub []
        pbad rest [] [kp]
        ([Ev.getFees] ++ getAccountFromSecretEvents env (some secretKey))
        (by simp) hbad
    have hpl2 := payLoop_no_submit env kp.pub (pbad :: rest) [] [kp]
      ([Ev.getFees] ++ getAccountFromSecretEvents env (some secretKey)) hnos
    simp only [List.nil_append]
    unfold sendPayment
    simp only [hres, hpl1]
    exact ⟨trivial, hpl2⟩
  | cons q pre' =>
    have hpl1 : (payLoop env kp.pub (q :: (pre' ++ pbad :: rest)) [] [kp]
        ([Ev.getFees] ++ getAccountFromSecretEvents env (some secretKey))).1 =
          .error insufficientBalanceErr := by
      simpa only [List.cons_append] using payLoop_insufficient env kp.pub
        (q :: pre') pbad rest [] [kp]
        ([Ev.getFees] ++ getAccountFromSecretEvents env (some secretKey))
        hpre hbad
    have hpl2 := payLoop_no_submit env kp.pub (q :: (pre' ++ pbad :: rest))
      [] [kp]
      ([Ev.getFees] ++ getAccountFromSecretEvents env (some secretKey)) hnos
    simp only [List.cons_append]
    unfold sendPayment
    simp only [hres, hpl1]
    exact ⟨trivial, hpl2⟩

theorem sendPayment_insufficient_aborts_witness :
    envA.kpFromSecret "SA" = some ⟨"GA"⟩ ∧
    envA.accounts "GA" = some demoAcc ∧
    (∀ p ∈ [payTen], stepOkB envA "GA" p = true) ∧
    stepBadB envA "GA" paySixty = true ∧
    ((sendPayment envA ([payTen] ++ paySixty :: []) "SA" false).1 =
        .error insufficientBalanceErr ∧
      Ev.submit ∉
        (sendPayment envA ([payTen] ++ paySixty :: []) "SA" false).2) :=
  ⟨by decide, by decide, by decide, by decide,
    sendPayment_insufficient_aborts envA [payTen] paySixty [] "SA" false
      ⟨"GA"⟩ demoAcc (by decide) (by decide) (by decide) (by decide)⟩

/- ### C3 -/

/-- C3: when the preliminary loads succeed and the sender's balance check
passes, `swapPayment` appends exactly two payment operations with the
source/destination roles reversed — the first pays the sender's asset/amount
to the recipient's address, the second, explicitly sourced from the
recipient's address, pays the recipient's asset/amount back to the sender —
and when the balance check fails it returns the boolean `false` without
appending any operation. -/
theorem swapPayment_two_ops_reversed
    (env : Env) (sender recipient : TSender) (memo : Option String)
    (skp rkp : KP) (acc : AccountRec) (sA rA : SAsset)
    (hskp : env.kpFromSecret sender.secretKey = some skp)
    (hacc : env.accounts skp.pub = some acc)
    (hsA : getAsset env.validKey sender.asset = .ok sA)
    (hrA : getAsset env.validKey recipient.asset = .ok rA)
    (hrkp : env.kpFromSecret recipient.secretKey = some rkp) :
    (env.validateAssetBalance sender.secretKey sA sender.amount = true →
      opsAppendedIn (swapPayment env sender recipient memo).2 =
        [Op.payment none (some rkp.pub) sA sender.amount,
         Op.payment (some rkp.pub) (some skp.pub) rA recipient.amount]) ∧
    (env.validateAssetBalance sender.secretKey sA sender.amount = false →
      (swapPayment env sender recipient memo).1 = .ok .rejected ∧
      opsAppendedIn (swapPayment env sender recipient memo).2 = []) := by
  have hres := getAccountFromSecretRes_ok env sender.secretKey skp acc
    hskp hacc
  have hevs := getAccountFromSecretEvents_ok env sender.secretKey skp hskp
  constructor
  · intro hv
    unfold swapPayment swapBody
    simp only [hres, hevs, hsA, hrA, hv, hrkp]
    cases hsub : env.submitResult with
    | ok u => simp [opsAppendedIn_append, opsAppendedIn]
    | error e =>
      cases hre : e.response with
      | some r => simp [hre, opsAppendedIn_append, opsAppendedIn]
      | none => simp [hre, opsAppendedIn_append, opsAppendedIn]
  · intro hv
    unfold swapPayment swapBody
    simp only [hres, hevs, hsA, hrA, hv, hrkp]
    simp [opsAppendedIn_append, opsAppendedIn]

theorem swapPayment_two_ops_reversed_witness :
    envA.kpFromSecret "SA" = some ⟨"GA"⟩ ∧
    envA.accounts "GA" = some demoAcc ∧
    getAsset envA.validKey "XLM" = .ok SAsset.nativeAsset ∧
    envA.kpFromSecret "SB" = some ⟨"GB"⟩ ∧
    ((envA.validateAssetBalance "SA" SAsset.nativeAsset 10 = true →
      opsAppendedIn
          (swapPayment envA ⟨"SA", "XLM", 10⟩ ⟨"SB", "XLM", 10⟩ none).2 =
        [Op.payment none (some "GB") SAsset.nativeAsset 10,
         Op.payment (some "GB") (some "GA") SAsset.nativeAsset 10]) ∧
     (envA.validateAssetBalance "SA" SAsset.nativeAsset 10 = false →
      (swapPayment envA ⟨"SA", "XLM", 10⟩ ⟨"SB", "XLM", 10⟩ none).1 =
          .ok .rejected ∧
      opsAppendedIn
          (swapPayment envA ⟨"SA", "XLM", 10⟩ ⟨"SB", "XLM", 10⟩ none).2 =
        [])) :=
  ⟨by decide, by decide, by decide, by decide,
    swapPayment_two_ops_reversed envA ⟨"SA", "XLM", 10⟩ ⟨"SB", "XLM", 10⟩
      none ⟨"GA"⟩ ⟨"GB"⟩ demoAcc SAsset.nativeAsset SAsset.nativeAsset
      (by decide) (by decide) (by decide) (by decide) (by decide)⟩

/- ### C4 -/

/-- Does every possible submission rejection of this world carry a
structured `response` payload? -/
def submitRespOk (env : Env) : Bool :=
  match env.submitResult with
  | .ok _ => true
  | .error e => e.response.isSome

/-- The `e.response.data` payload of a failing submission, if any. -/
def submitPayload (env : Env) : Option String :=
  match env.submitResult with
  | .ok _ => none
  | .error e => e.response.map (·.data)

/-- C4 counterexample: with a sender secret the SDK rejects,
`getAccountFromSecret` throws the `INVALID_SECRET` error, which carries no
`response` field; the `catch (e) { return e.response.data }` handler then
itself throws a `TypeError`, so the call propagates an exception instead of
returning a failure value — refuting "any failure ... yields a caught,
returned failure value and never a propagated exception". -/
theorem swapPayment_throws_cex :
    (swapPayment envA ⟨"SBAD", "XLM", 1⟩ ⟨"SBAD2", "XLM", 1⟩ none).1 =
      .error typeUndefinedErr := by decide

/-- C4 amended, part 1 of what the theorem settles: failures whose thrown
error carries a structured `response` payload are caught and returned as
that payload.  A failing sender account load is such a failure: Horizon's
404 rejection carries a `response` (its `data` is modelled by the fixed
token `"not_found"`), so the `catch` returns it as the failure value.
Part 2: when the secrets and assets all resolve and the submission outcome
carries a `response` payload on rejection, the call returns boolean `true`
on success, boolean `false` on the balance-check rejection, or the
rejection's `response.data` payload.  An error without a `response` payload
instead escapes the `catch` handler as a thrown `TypeError` (see the
counterexample). -/
theorem swapPayment_failures_are_values
    (env : Env) (sender recipient : TSender) (memo : Option String)
    (skp rkp : KP) (acc : AccountRec) (sA rA : SAsset)
    (hresp : submitRespOk env = true) :
    ((env.kpFromSecret sender.secretKey = some skp ∧
      env.accounts skp.pub = none) →
      (swapPayment env sender recipient memo).1 =
        .ok (.payload "not_found")) ∧
    ((env.kpFromSecret sender.secretKey = some skp ∧
      env.accounts skp.pub = some acc ∧
      getAsset env.validKey sender.asset = .ok sA ∧
      getAsset env.validKey recipient.asset = .ok rA ∧
      env.kpFromSecret recipient.secretKey = some rkp) →
      ((swapPayment env sender recipient memo).1 = .ok .success ∨
       (swapPayment env sender recipient memo).1 = .ok .rejected ∨
       (swapPayment env sender recipient memo).1 =
         .ok (.payload ((submitPayload env).getD "")))) := by
  constructor
  · rintro ⟨hskp, hnone⟩
    have hres : getAccountFromSecretRes env (some sender.secretKey) =
        .error notFoundErr := by
      simp [getAccountFromSecretRes, getPairFromSecret, hskp, getAccountRes,
        loadAccountRes, jsTruthy_isValidAccount, hnone]
    unfold swapPayment swapBody
    simp only [hres]
    simp [notFoundErr]
  · rintro ⟨hskp, hacc, hsA, hrA, hrkp⟩
    have hres := getAccountFromSecretRes_ok env sender.secretKey skp acc
      hskp hacc
    have hevs := getAccountFromSecretEvents_ok env sender.secretKey skp hskp
    unfold swapPayment swapBody
    by_cases hv : env.validateAssetBalance sender.secretKey sA sender.amount
    · simp only [hres, hevs, hsA, hrA, hv, hrkp]
      cases hsub : env.submitResult with
      | ok u => simp
      | error e =>
        cases hre : e.response with
        | some r => simp [submitPayload, hsub, hre]
        | none =>
          exact absurd hresp (by simp [submitRespOk, hsub, hre])
    · rw [Bool.not_eq_true] at hv
      simp only [hres, hevs, hsA, hrA, hv, hrkp]
      simp

/-- A world in which every account load fails with the Horizon 404. -/
def envL : Env := { envA with accounts := fun _ => none }

theorem swapPayment_failures_are_values_witness :
    (submitRespOk envL = true ∧
     envL.kpFromSecret "SA" = some ⟨"GA"⟩ ∧
     envL.accounts "GA" = none ∧
     (swapPayment envL ⟨"SA", "XLM", 10⟩ ⟨"SB", "XLM", 10⟩ none).1 =
       .ok (.payload "not_found")) ∧
    (submitRespOk envA = true ∧
     envA.kpFromSecret "SA" = some ⟨"GA"⟩ ∧
     envA.accounts "GA" = some demoAcc ∧
     ((swapPayment envA ⟨"SA", "XLM", 10⟩ ⟨"SB", "XLM", 10⟩ none).1 =
        .ok .success ∨
      (swapPayment envA ⟨"SA", "XLM", 10⟩ ⟨"SB", "XLM", 10⟩ none).1 =
        .ok .rejected ∨
      (swapPayment envA ⟨"SA", "XLM", 10⟩ ⟨"SB", "XLM", 10⟩ none).1 =
        .ok (.payload ((submitPayload envA).getD "")))) :=
  ⟨⟨by decide, by decide, by decide,
    (swapPayment_failures_are_values envL ⟨"SA", "XLM", 10⟩
      ⟨"SB", "XLM", 10⟩ none ⟨"GA"⟩ ⟨"GB"⟩ demoAcc SAsset.nativeAsset
      SAsset.nativeAsset (by decide)).1 ⟨by decide, by decide⟩⟩,
   ⟨by decide, by decide, by decide,
    (swapPayment_failures_are_values envA ⟨"SA", "XLM", 10⟩
      ⟨"SB", "XLM", 10⟩ none ⟨"GA"⟩ ⟨"GB"⟩ demoAcc SAsset.nativeAsset
      SAsset.nativeAsset (by decide)).2
      ⟨by decide, by decide, by decide, by decide, by decide⟩⟩⟩

/- ### C6 -/

def cfgRole : StellarConfig :=
  { create_by := some "issuer"
    accounts := [{ type := "issuer", public := some "GA",
                   secret := some "SA" }] }

def rejectionErr : JSError := ⟨"Transaction rejected", some ⟨"tx_failed"⟩⟩

def envAFail : Env := { envA with submitResult := .error rejectionErr }

/-- C6: once role validation passes and the funding account loads, a
rejected submission is swallowed by `.catch((e) => e)` — it resolves to the
error value instead of re-throwing — and `createAccount` still returns the
freshly generated keypair to the caller, with the submission attempt having
taken place. -/
theorem createAccount_returns_fresh_keypair
    (env : Env) (cfg : StellarConfig) (secret trustline : Option String)
    (fkp : KP) (acc : AccountRec) (ops : List Op) (e : JSError)
    (hv : validateAccountType cfg = .ok ())
    (hf : resolveFunding env cfg secret = .ok fkp)
    (hacc : env.accounts fkp.pub = some acc)
    (hops : buildCreateOps env cfg env.freshPair trustline = .ok ops)
    (_hsub : env.submitResult = .error e) :
    (createAccount env cfg secret trustline).1 = .ok env.freshPair ∧
    Ev.submit ∈ (createAccount env cfg secret trustline).2 := by
  have hga : getAccountRes env (some fkp.pub) = .ok (some acc) := by
    simp [getAccountRes, loadAccountRes, jsTruthy_isValidAccount, hacc]
  unfold createAccount
  simp only [hv, hf, hga, hops]
  constructor
  · trivial
  · simp

theorem createAccount_returns_fresh_keypair_witness :
    (validateAccountType cfgRole = .ok () ∧
     resolveFunding envAFail cfgRole none = .ok ⟨"GA"⟩ ∧
     envAFail.accounts "GA" = some demoAcc ∧
     buildCreateOps envAFail cfgRole envAFail.freshPair none =
       .ok [Op.createAcc "GNEW" "1"] ∧
     envAFail.submitResult = .error rejectionErr) ∧
    ((createAccount envAFail cfgRole none none).1 =
        .ok envAFail.freshPair ∧
     Ev.submit ∈ (createAccount envAFail cfgRole none none).2) :=
  ⟨⟨by decide, by decide, by decide, by decide, by decide⟩,
    createAccount_returns_fresh_keypair envAFail cfgRole none none ⟨"GA"⟩
      demoAcc [Op.createAcc "GNEW" "1"] rejectionErr (by decide) (by decide)
      (by decide) (by decide) (by decide)⟩

/- ### C8 -/

/-- A non-native balance line whose `new Asset(code, issuer)` construction
succeeds (alphanumeric code of at most 12 characters, valid issuer key). -/
def nonNativeWF (vk : String → Bool) : BalanceLine → Bool
  | .native _ => true
  | .issued c i _ =>
    match assetNew vk (some c) (some i) with
    | .ok _ => true
    | .error _ => false

theorem deleteLineOps_eq (vk : String → Bool) (dest : Option String)
    (bs : List BalanceLine) :
    ∀ ops, (∀ line ∈ bs, nonNativeWF vk line = true) →
      deleteLineOps vk dest bs ops =
        .ok (ops ++ bs.flatMap (fun line =>
          match line with
          | .native _ => []
          | .issued c i b =>
            (if b ≠ 0 then [Op.payment none dest ⟨c, some i⟩ b] else []) ++
            [Op.changeTrust none ⟨c, some i⟩ (some "0")])) := by
  induction bs with
  | nil => intro ops _; simp [deleteLineOps]
  | cons line rest ih =>
    intro ops h
    cases line with
    | native b =>
      simpa [deleteLineOps] using
        ih ops (fun l hl => h l (List.mem_cons_of_mem _ hl))
    | issued c i b =>
      have hwf := h _ (List.mem_cons_self _ _)
      simp only [nonNativeWF] at hwf
      cases hA : assetNew vk (some c) (some i) with
      | error e => simp [hA] at hwf
      | ok A =>
        obtain ⟨hAeq, -⟩ := assetNew_ok hA
        simp only [jsStr] at hAeq
        subst hAeq
        unfold deleteLineOps
        rw [hA]
        dsimp only
        rw [ih _ (fun l hl => h l (List.mem_cons_of_mem _ hl))]
        simp [List.append_assoc]

/-- C8: with the destination role configured and the account snapshot
loaded, the transaction `deleteAccount` builds consists of, for each
non-native balance line in order, a full-balance payment to the destination
role's account exactly when that balance is nonzero followed always by a
zero-limit change-trust for that asset, and ends with a single account-merge
to the destination — all appended into the one transaction, which is then
submitted. -/
theorem deleteAccount_drains_and_merges
    (env : Env) (cfg : StellarConfig) (secret : String) (kp : KP)
    (acc : AccountRec) (d : String)
    (hcb : optTruthy cfg.create_by = true)
    (hkp : env.kpFromSecret secret = some kp)
    (hacc : env.accounts kp.pub = some acc)
    (hd : (findByType cfg).bind (·.public) = some d)
    (hwf : ∀ line ∈ acc.balances, nonNativeWF env.validKey line = true) :
    opsAppendedIn (deleteAccount env cfg secret).2 =
      acc.balances.flatMap (fun line =>
        match line with
        | .native _ => []
        | .issued c i b =>
          (if b ≠ 0 then [Op.payment none (some d) ⟨c, some i⟩ b] else []) ++
          [Op.changeTrust none ⟨c, some i⟩ (some "0")]) ++
      [Op.accountMerge (some d)] ∧
    (deleteAccount env cfg secret).1 = .ok () := by
  have hres := getAccountFromSecretRes_ok env secret kp acc hkp hacc
  have hevs := getAccountFromSecretEvents_ok env secret kp hkp
  unfold deleteAccount
  simp only [hcb, hres, hevs, hd, Bool.true_eq_false, not_false_eq_true,
    if_false]
  rw [deleteLineOps_eq env.validKey (some d) acc.balances [] hwf]
  simp [opsAppendedIn_append, opsAppendedIn_map, opsAppendedIn]

def accB : AccountRec :=
  ⟨[.native 5, .issued "TOKE" "GISS" 7, .issued "ZERO" "GISS" 0]⟩

def envB : Env :=
  { envA with
    kpFromSecret := fun s =>
      if s = "SC" then some ⟨"GC"⟩ else envA.kpFromSecret s
    accounts := fun a =>
      if a = "GC" then some accB else envA.accounts a }

theorem deleteAccount_drains_and_merges_witness :
    (optTruthy cfgRole.create_by = true ∧
     envB.kpFromSecret "SC" = some ⟨"GC"⟩ ∧
     envB.accounts "GC" = some accB ∧
     (findByType cfgRole).bind (·.public) = some "GA" ∧
     (∀ line ∈ accB.balances, nonNativeWF envB.validKey line = true)) ∧
    (opsAppendedIn (deleteAccount envB cfgRole "SC").2 =
      accB.balances.flatMap (fun line =>
        match line with
        | .native _ => []
        | .issued c i b =>
          (if b ≠ 0 then
            [Op.payment none (some "GA") ⟨c, some i⟩ b] else []) ++
          [Op.changeTrust none ⟨c, some i⟩ (some "0")]) ++
      [Op.accountMerge (some "GA")] ∧
     (deleteAccount envB cfgRole "SC").1 = .ok ()) :=
  ⟨⟨by decide, by decide, by decide, by decide, by decide⟩,
    deleteAccount_drains_and_merges envB cfgRole "SC" ⟨"GC"⟩ accB "GA"
      (by decide) (by decide) (by decide) (by decide) (by decide)⟩

/- ### C9 -/

/-- C9: when the wallet's balance list already carries a line whose asset
code equals the requested asset's code, `validateTrustLine` returns success
immediately: no operation is appended, no transaction is built or submitted.
A second call in succession for the same wallet/asset therefore performs no
change-trust operations — the upsert is idempotent. -/
theorem validateTrustLine_idempotent
    (env : Env) (cfg : StellarConfig) (asset walletPub walletSecret : String)
    (A : SAsset) (ms : String) (mkp : KP) (macc wacc : AccountRec)
    (hA : getAssetCode env.validKey asset = .ok A)
    (hms : (findByType cfg).bind (·.secret) = some ms)
    (hmkp : env.kpFromSecret ms = some mkp)
    (hmacc : env.accounts mkp.pub = some macc)
    (hwacc : env.accounts walletPub = some wacc)
    (hline : (wacc.balances.find?
      (fun b => b.assetCode == some A.code)).isSome = true) :
    (validateTrustLine env cfg asset walletPub walletSecret).1 =
      .ok .success ∧
    opsAppendedIn
      (validateTrustLine env cfg asset walletPub walletSecret).2 = [] ∧
    Ev.submit ∉
      (validateTrustLine env cfg asset walletPub walletSecret).2 := by
  have hres : getAccountFromSecretRes env ((findByType cfg).bind (·.secret))
      = .ok (mkp, some macc) := by
    rw [hms]; exact getAccountFromSecretRes_ok env ms mkp macc hmkp hmacc
  have hevs : getAccountFromSecretEvents env
      ((findByType cfg).bind (·.secret)) = [Ev.loadAccount (some mkp.pub)] := by
    rw [hms]; exact getAccountFromSecretEvents_ok env ms mkp hmkp
  have hgb : getBalancesRes env (some walletPub) none =
      .ok (.all wacc.balances) := by
    simp [getBalancesRes, getAccountRes, loadAccountRes,
      jsTruthy_isValidAccount, hwacc, optTruthy]
  have hnone : (wacc.balances.find?
      (fun b => b.assetCode == some A.code)).isNone = false := by
    obtain ⟨L, hL⟩ := Option.isSome_iff_exists.mp hline
    simp [hL]
  unfold validateTrustLine
  simp only [hA, hres, hevs, hgb, getAccountEvents_eq]
  simp [hnone, opsAppendedIn_append, opsAppendedIn]

def wAcc : AccountRec := ⟨[.issued "TOKE" "GISS" 5]⟩

def envW : Env :=
  { envA with
    accounts := fun a => if a = "GW" then some wAcc else envA.accounts a }

theorem validateTrustLine_idempotent_witness :
    (getAssetCode envW.validKey "TOKE:GISS" = .ok ⟨"TOKE", some "GISS"⟩ ∧
     (findByType cfgRole).bind (·.secret) = some "SA" ∧
     envW.kpFromSecret "SA" = some ⟨"GA"⟩ ∧
     envW.accounts "GA" = some demoAcc ∧
     envW.accounts "GW" = some wAcc ∧
     (wAcc.balances.find?
       (fun b => b.assetCode == some (SAsset.mk "TOKE" (some "GISS")).code)).isSome
       = true) ∧
    ((validateTrustLine envW cfgRole "TOKE:GISS" "GW" "SW").1 =
        .ok .success ∧
     opsAppendedIn (validateTrustLine envW cfgRole "TOKE:GISS" "GW" "SW").2 =
        [] ∧
     Ev.submit ∉ (validateTrustLine envW cfgRole "TOKE:GISS" "GW" "SW").2) :=
  ⟨⟨by decide, by decide, by decide, by decide, by decide, by decide⟩,
    validateTrustLine_idempotent envW cfgRole "TOKE:GISS" "GW" "SW"
      ⟨"TOKE", some "GISS"⟩ "SA" ⟨"GA"⟩ demoAcc wAcc (by decide) (by decide)
      (by decide) (by decide) (by decide) (by decide)⟩

end StellarNest
